import Mathlib

/-!
Shallow embedding of the inventory search backend (src/backend/index.js).

The backend is an Express app over a fixed in-memory array `inventoryData`.
We model an inventory record as `Item`, the raw `/search` query parameters as
`SearchQuery` (each field `Option String`: `none` = parameter absent), the
`/search` handler as the pure function `searchHandler`, and the `/categories`
computation as `getCategories`.  Prices are modelled as rationals `ℚ`
(the dataset and the claims use ordinary finite decimals; IEEE-754 rounding
is not observable at the magnitudes involved).  Everything is parameterised
by the store contents `inv : List Item`, matching the spec's quantification
over "every store contents".

JavaScript's `toLowerCase` and default string `sort()` are modelled at the
character-code level (`lowerChar`, `charListLe`): on the ASCII data this
program handles they agree with the JS semantics (UTF-16 code-unit
comparison, ASCII case mapping).
-/

/-- One inventory record (shape of the objects in `inventory.json`). -/
structure Item where
  id : Nat
  product_name : String
  category : String
  price : ℚ
  quantity : Nat
  supplier : String
  city : String
deriving DecidableEq

/-- Raw `/search` query parameters; `none` models an absent parameter
(`undefined` in `req.query`), `some s` a supplied textual value. -/
structure SearchQuery where
  q : Option String
  category : Option String
  minPrice : Option String
  maxPrice : Option String
deriving DecidableEq

/-- JavaScript truthiness of an optional string: `undefined` and `""` are
falsy, every other string is truthy. -/
def truthy : Option String → Bool
  | none => false
  | some s => !(s == "")

/-- ASCII lower-casing of one character, as JS `toLowerCase` acts on the
character range this program handles. -/
def lowerChar (c : Char) : Char :=
  if c.isUpper then Char.ofNat (c.toNat + 32) else c

/-- The character list of `s.toLowerCase()`. -/
def lowerData (s : String) : List Char := s.data.map lowerChar

/-- `digitVal c` is the value of a decimal digit character, else `none`. -/
def digitVal (c : Char) : Option Nat :=
  if '0' ≤ c ∧ c ≤ '9' then some (c.toNat - '0'.toNat) else none

/-- Split a character list into its longest leading run of decimal digits
(as digit values) and the remainder. -/
def takeDigits : List Char → List Nat × List Char
  | [] => ([], [])
  | c :: cs =>
    match digitVal c with
    | some d =>
      let r := takeDigits cs
      (d :: r.1, r.2)
    | none => ([], c :: cs)

/-- Value of a most-significant-first digit list. -/
def natOfDigits (ds : List Nat) : Nat :=
  ds.foldl (fun acc d => 10 * acc + d) 0

/-- Decomposed result of a successful `parseFloat`: sign, integer part,
fractional digits (value and count), exponent sign and magnitude. -/
structure ParsedNumber where
  neg : Bool
  intPart : Nat
  fracPart : Nat
  fracLen : Nat
  expNeg : Bool
  expMag : Nat
deriving DecidableEq

/-- Syntactic phase of JavaScript `parseFloat`: skip leading whitespace,
read an optional sign, then the longest prefix of the form
`digits[.digits][e±digits]` (at least one mantissa digit required);
trailing garbage is ignored and `none` models `NaN`.  (The `Infinity`
literal, not representable in `ℚ` and not exercised by this program's
inputs, is not modelled.) -/
def parseFloatParts (s : String) : Option ParsedNumber :=
  let cs := s.data.dropWhile Char.isWhitespace
  let sgn : Bool × List Char :=
    match cs with
    | '-' :: r => (true, r)
    | '+' :: r => (false, r)
    | r => (false, r)
  let ip := takeDigits sgn.2
  let fp : List Nat × List Char :=
    match ip.2 with
    | '.' :: r => takeDigits r
    | r => ([], r)
  if ip.1.isEmpty && fp.1.isEmpty then none
  else
    let ex : Bool × Nat :=
      match fp.2 with
      | 'e' :: r | 'E' :: r =>
        let es : Bool × List Char :=
          match r with
          | '-' :: r2 => (true, r2)
          | '+' :: r2 => (false, r2)
          | r2 => (false, r2)
        let ed := takeDigits es.2
        if ed.1.isEmpty then (false, 0) else (es.1, natOfDigits ed.1)
      | _ => (false, 0)
    some ⟨sgn.1, natOfDigits ip.1, natOfDigits fp.1, fp.1.length, ex.1, ex.2⟩

/-- Numeric value of a `ParsedNumber`. -/
def ratOfParts (n : ParsedNumber) : ℚ :=
  let mant : ℚ :=
    (if n.neg then -1 else 1) * ((n.intPart : ℚ) + (n.fracPart : ℚ) / (10 : ℚ) ^ n.fracLen)
  if n.expNeg then mant / (10 : ℚ) ^ n.expMag else mant * (10 : ℚ) ^ n.expMag

/-- Model of JavaScript `parseFloat`; `none` models `NaN`. -/
def parseFloat (s : String) : Option ℚ :=
  (parseFloatParts s).map ratOfParts

/-- `matchesQuery` from index.js: case-insensitive containment of `query`
in `text` (`text.toLowerCase().includes(query.toLowerCase())`);
a falsy (empty) query always matches. -/
def matchesQuery (text query : String) : Bool :=
  if query == "" then true
  else (lowerData text).tails.any fun t => List.isPrefixOf (lowerData query) t

/-- The name-filter stage: `if (q) results = results.filter(...)`. -/
def applyQ : Option String → List Item → List Item
  | some s, l => if s == "" then l else l.filter fun item => matchesQuery item.product_name s
  | none, l => l

/-- The category-filter stage:
`if (category && category !== 'all') results = results.filter(...)`;
the filter itself compares lower-cased category strings. -/
def applyCategory : Option String → List Item → List Item
  | some c, l =>
    if c == "" || c == "all" then l
    else l.filter fun item => lowerData item.category == lowerData c
  | none, l => l

/-- The minimum-price stage: if the parameter is supplied and non-empty,
parse it; filter only when the parse does not yield `NaN`. -/
def applyMin : Option String → List Item → List Item
  | some s, l =>
    if s == "" then l
    else
      match parseFloat s with
      | some mn => l.filter fun item => decide (item.price ≥ mn)
      | none => l
  | none, l => l

/-- The maximum-price stage, symmetric to `applyMin`. -/
def applyMax : Option String → List Item → List Item
  | some s, l =>
    if s == "" then l
    else
      match parseFloat s with
      | some mx => l.filter fun item => decide (item.price ≤ mx)
      | none => l
  | none, l => l

/-- The four sequential filter statements of the `/search` handler. -/
def runFilters (p : SearchQuery) (inv : List Item) : List Item :=
  applyMax p.maxPrice (applyMin p.minPrice (applyCategory p.category (applyQ p.q inv)))

/-- The echoed `query` object of a success response: `x || null`. -/
structure EchoedQuery where
  q : Option String
  category : Option String
  minPrice : Option String
  maxPrice : Option String
deriving DecidableEq

/-- JS `x || null` for an optional string parameter. -/
def jsOrNull (o : Option String) : Option String :=
  if truthy o then o else none

/-- The `query` object echoed in a success response. -/
def echoQuery (p : SearchQuery) : EchoedQuery :=
  ⟨jsOrNull p.q, jsOrNull p.category, jsOrNull p.minPrice, jsOrNull p.maxPrice⟩

/-- Observable outcome of a `/search` request: the HTTP 200 success body
(`success: true`, `count`, echoed `query`, `results`) or the HTTP 400
validation failure (`success: false`, `error`, `results: []`). -/
inductive SearchResponse where
  | ok (count : Nat) (query : EchoedQuery) (results : List Item)
  | badRequest (error : String)
deriving DecidableEq

/-- The `success` field of the response body. -/
def SearchResponse.success : SearchResponse → Bool
  | .ok _ _ _ => true
  | .badRequest _ => false

/-- The HTTP status code of the response. -/
def SearchResponse.status : SearchResponse → Nat
  | .ok _ _ _ => 200
  | .badRequest _ => 400

/-- The `results` field of the response body (empty on failure). -/
def SearchResponse.results : SearchResponse → List Item
  | .ok _ _ rs => rs
  | .badRequest _ => []

/-- The echoed `query` object, when the response is a success. -/
def SearchResponse.queryEcho : SearchResponse → Option EchoedQuery
  | .ok _ qe _ => some qe
  | .badRequest _ => none

/-- The validation-error message of the `/search` handler. -/
def invalidRangeMsg : String :=
  "Invalid price range: minPrice cannot be greater than maxPrice"

/-- The `/search` handler (index.js lines 44–103): filter the store through
the four stages, then validate the min/max relationship on the raw parsed
values (`if (minPrice && maxPrice)`, both parses non-NaN, `min > max` ⇒ 400),
otherwise answer the success body. -/
def searchHandler (inv : List Item) (p : SearchQuery) : SearchResponse :=
  let results := runFilters p inv
  if truthy p.minPrice && truthy p.maxPrice then
    match parseFloat (p.minPrice.getD ""), parseFloat (p.maxPrice.getD "") with
    | some mn, some mx =>
      if mn > mx then SearchResponse.badRequest invalidRangeMsg
      else SearchResponse.ok results.length (echoQuery p) results
    | _, _ => SearchResponse.ok results.length (echoQuery p) results
  else SearchResponse.ok results.length (echoQuery p) results

/-- First-occurrence deduplication, as `[...new Set(xs)]` produces
(insertion order, first occurrence kept). -/
def dedupFirst (seen : List String) : List String → List String
  | [] => []
  | a :: l => if a ∈ seen then dedupFirst seen l else a :: dedupFirst (a :: seen) l

/-- Code-unit-wise lexicographic `≤` on character lists, as JS `sort()`
compares strings. -/
def charListLe : List Char → List Char → Bool
  | [], _ => true
  | _ :: _, [] => false
  | a :: as, b :: bs =>
    if a.toNat < b.toNat then true
    else if b.toNat < a.toNat then false
    else charListLe as bs

/-- Lexicographic `≤` on strings, as a relation (JS default sort order). -/
def strLeR (a b : String) : Prop := charListLe a.data b.data = true

instance : DecidableRel strLeR := fun _ _ => instDecidableEqBool _ _

/-- `getCategories` from index.js:
`[...new Set(inventoryData.map(item => item.category))].sort()` —
distinct categories in first-occurrence order, then sorted ascending
(JS default sort = lexicographic; `sort` modelled by an insertion sort
under `strLeR`). -/
def getCategories (inv : List Item) : List String :=
  List.insertionSort strLeR (dedupFirst [] (inv.map fun i => i.category))

/-- A `SearchQuery` with every parameter absent. -/
def emptyQuery : SearchQuery := ⟨none, none, none, none⟩

/-- Pointwise form of the name-filter stage. -/
def passQ : Option String → Item → Bool
  | some s, item => if s == "" then true else matchesQuery item.product_name s
  | none, _ => true

/-- Pointwise form of the category-filter stage. -/
def passCategory : Option String → Item → Bool
  | some c, item =>
    if c == "" || c == "all" then true
    else lowerData item.category == lowerData c
  | none, _ => true

/-- Pointwise form of the minimum-price stage. -/
def passMin : Option String → Item → Bool
  | some s, item =>
    if s == "" then true
    else
      match parseFloat s with
      | some mn => decide (item.price ≥ mn)
      | none => true
  | none, _ => true

/-- Pointwise form of the maximum-price stage. -/
def passMax : Option String → Item → Bool
  | some s, item =>
    if s == "" then true
    else
      match parseFloat s with
      | some mx => decide (item.price ≤ mx)
      | none => true
  | none, _ => true

/-- A record passes all four filter stages. -/
def passAll (p : SearchQuery) (item : Item) : Bool :=
  passMax p.maxPrice item && passMin p.minPrice item &&
    passCategory p.category item && passQ p.q item

/-- The condition under which the handler answers the HTTP 400 validation
failure: both price parameters truthy and both parses non-NaN with
min > max. -/
def rangeInvalid (p : SearchQuery) : Bool :=
  truthy p.minPrice && truthy p.maxPrice &&
    match parseFloat (p.minPrice.getD ""), parseFloat (p.maxPrice.getD "") with
    | some mn, some mx => decide (mn > mx)
    | _, _ => false

/-- Sample record used to instantiate universally quantified theorems. -/
def demoLaptop : Item := ⟨1, "Laptop Dell XPS 15", "Electronics", 1200, 5, "Dell", "Austin"⟩

/-- A second sample record. -/
def demoChair : Item := ⟨2, "Office Chair", "Furniture", 150, 10, "Ikea", "Dallas"⟩

/-- A two-record sample store. -/
def demoInv : List Item := [demoLaptop, demoChair]

/-- A sample store exercising both price-range boundaries. -/
def priceDemoInv : List Item :=
  [⟨1, "A", "X", 100, 1, "s", "c"⟩, ⟨2, "B", "X", 500, 1, "s", "c"⟩,
   ⟨3, "C", "X", 50, 1, "s", "c"⟩, ⟨4, "D", "X", 700, 1, "s", "c"⟩]

/-- A sample store with duplicate categories, as in the spec's
`/categories` example. -/
def catsDemoInv : List Item :=
  [⟨1, "A", "Electronics", 10, 1, "s", "c"⟩, ⟨2, "B", "Books", 20, 1, "s", "c"⟩,
   ⟨3, "C", "Electronics", 30, 1, "s", "c"⟩]

/-! ## General lemmas about the filter chain -/

theorem passQ_none : passQ none = fun _ => true := rfl

theorem passQ_some (s : String) :
    passQ (some s) = fun item => if s == "" then true else matchesQuery item.product_name s := rfl

theorem passCategory_none : passCategory none = fun _ => true := rfl

theorem passCategory_some (c : String) :
    passCategory (some c) =
      fun item =>
        if c == "" || c == "all" then true else lowerData item.category == lowerData c := rfl

theorem passMin_none : passMin none = fun _ => true := rfl

theorem passMin_some (s : String) :
    passMin (some s) =
      fun item =>
        if s == "" then true
        else
          match parseFloat s with
          | some mn => decide (item.price ≥ mn)
          | none => true := rfl

theorem passMax_none : passMax none = fun _ => true := rfl

theorem passMax_some (s : String) :
    passMax (some s) =
      fun item =>
        if s == "" then true
        else
          match parseFloat s with
          | some mx => decide (item.price ≤ mx)
          | none => true := rfl

theorem applyQ_eq_filter (o : Option String) (l : List Item) :
    applyQ o l = l.filter (passQ o) := by
  cases o with
  | none => simp [applyQ, passQ_none]
  | some s =>
    by_cases h : s == "" <;> simp [applyQ, passQ_some, h]

theorem applyCategory_eq_filter (o : Option String) (l : List Item) :
    applyCategory o l = l.filter (passCategory o) := by
  cases o with
  | none => simp [applyCategory, passCategory_none]
  | some c =>
    by_cases h : (c == "" || c == "all") = true <;> simp [applyCategory, passCategory_some, h]

theorem applyMin_eq_filter (o : Option String) (l : List Item) :
    applyMin o l = l.filter (passMin o) := by
  cases o with
  | none => simp [applyMin, passMin_none]
  | some s =>
    by_cases h : s == ""
    · simp [applyMin, passMin_some, h]
    · cases hp : parseFloat s <;> simp [applyMin, passMin_some, h, hp]

theorem applyMax_eq_filter (o : Option String) (l : List Item) :
    applyMax o l = l.filter (passMax o) := by
  cases o with
  | none => simp [applyMax, passMax_none]
  | some s =>
    by_cases h : s == ""
    · simp [applyMax, passMax_some, h]
    · cases hp : parseFloat s <;> simp [applyMax, passMax_some, h, hp]

theorem runFilters_eq_filter (p : SearchQuery) (inv : List Item) :
    runFilters p inv = inv.filter (passAll p) := by
  rw [runFilters, applyQ_eq_filter, applyCategory_eq_filter, applyMin_eq_filter,
    applyMax_eq_filter, List.filter_filter, List.filter_filter, List.filter_filter]
  rfl

theorem searchHandler_eq (inv : List Item) (p : SearchQuery) :
    searchHandler inv p =
      if rangeInvalid p then SearchResponse.badRequest invalidRangeMsg
      else SearchResponse.ok (runFilters p inv).length (echoQuery p) (runFilters p inv) := by
  unfold searchHandler rangeInvalid
  cases htm : (truthy p.minPrice && truthy p.maxPrice) with
  | false => simp [htm]
  | true =>
    cases hmn : parseFloat (p.minPrice.getD "") with
    | none => simp [htm, hmn]
    | some mn =>
      cases hmx : parseFloat (p.maxPrice.getD "") with
      | none => simp [htm, hmn, hmx]
      | some mx => by_cases hgt : mn > mx <;> simp [htm, hmn, hmx, hgt]

/-! ## Helper facts about parsing and truthiness -/

theorem parseFloat_empty : parseFloat "" = none := rfl

theorem ne_empty_of_parse {s : String} {x : ℚ} (h : parseFloat s = some x) : s ≠ "" := by
  intro e
  subst e
  rw [parseFloat_empty] at h
  exact Option.noConfusion h

theorem truthy_some_iff (s : String) : truthy (some s) = true ↔ s ≠ "" := by
  simp [truthy]

theorem parseFloat_100 : parseFloat "100" = some 100 := by
  rw [parseFloat, show parseFloatParts "100" = some ⟨false, 100, 0, 0, false, 0⟩ from by decide]
  norm_num [ratOfParts, Option.map]

theorem parseFloat_500 : parseFloat "500" = some 500 := by
  rw [parseFloat, show parseFloatParts "500" = some ⟨false, 500, 0, 0, false, 0⟩ from by decide]
  norm_num [ratOfParts, Option.map]

theorem parseFloat_600 : parseFloat "600" = some 600 := by
  rw [parseFloat, show parseFloatParts "600" = some ⟨false, 600, 0, 0, false, 0⟩ from by decide]
  norm_num [ratOfParts, Option.map]

theorem parseFloat_abc : parseFloat "abc" = none := by
  rw [parseFloat, show parseFloatParts "abc" = none from by decide]
  rfl

/-! ## Claim theorems -/

/-- C1: for every record sequence and every criteria object, the `/search`
results are a subsequence of the store (`List.Sublist`: every output record
occurs in the store, with multiplicity and relative order preserved), and
with all criteria absent the filter is the identity. -/
theorem searchResults_sublist (inv : List Item) (p : SearchQuery) :
    ((searchHandler inv p).results).Sublist inv ∧
      (searchHandler inv emptyQuery).results = inv := by
  constructor
  · rw [searchHandler_eq]
    by_cases h : rangeInvalid p = true
    · simp [h, SearchResponse.results]
    · simp only [Bool.not_eq_true] at h
      simp [h, SearchResponse.results, runFilters_eq_filter, List.filter_sublist]
  · rfl

/-- C8: a `/search` request with no parameters succeeds with the whole
store, in order, as results, `count` equal to the store size, and an
all-`null` echoed query. -/
theorem emptySearch_returnsAll (inv : List Item) :
    searchHandler inv emptyQuery = SearchResponse.ok inv.length ⟨none, none, none, none⟩ inv := rfl

/-- C2: when both `minPrice` and `maxPrice` are supplied and parse to
numbers with min strictly greater than max, `/search` answers the HTTP 400
validation failure (`success: false`, the error message, empty results);
when at least one of the two parses fails (`NaN`), no validation error is
raised and the response is a success. -/
theorem minOverMax_validation (inv : List Item) (p : SearchQuery) :
    (∀ s t mn mx, p.minPrice = some s → p.maxPrice = some t →
      parseFloat s = some mn → parseFloat t = some mx → mx < mn →
      searchHandler inv p = SearchResponse.badRequest invalidRangeMsg ∧
        (searchHandler inv p).status = 400 ∧
        (searchHandler inv p).success = false ∧
        (searchHandler inv p).results = []) ∧
    ((parseFloat (p.minPrice.getD "") = none ∨ parseFloat (p.maxPrice.getD "") = none) →
      (searchHandler inv p).success = true) := by
  constructor
  · intro s t mn mx hs ht hps hpt hlt
    have hinv : rangeInvalid p = true := by
      unfold rangeInvalid
      rw [hs, ht]
      simp only [Option.getD_some]
      rw [hps, hpt]
      simp [truthy_some_iff, ne_empty_of_parse hps, ne_empty_of_parse hpt,
        gt_iff_lt, hlt, truthy]
    rw [searchHandler_eq, if_pos hinv]
    exact ⟨rfl, rfl, rfl, rfl⟩
  · intro h
    have hinv : rangeInvalid p = false := by
      unfold rangeInvalid
      rcases h with h | h
      · cases hmx : parseFloat (p.maxPrice.getD "") <;> simp [h, hmx]
      · cases hmn : parseFloat (p.minPrice.getD "") <;> simp [h, hmn]
    rw [searchHandler_eq, if_neg (by simp [hinv])]
    rfl

/-- Witness for C2: `minPrice=600, maxPrice=100` gives the 400 failure, and
an unparsable `minPrice="abc"` raises no validation error. -/
theorem minOverMax_validation_witness :
    (searchHandler demoInv ⟨none, none, some "600", some "100"⟩ =
        SearchResponse.badRequest invalidRangeMsg ∧
      (searchHandler demoInv ⟨none, none, some "600", some "100"⟩).status = 400 ∧
      (searchHandler demoInv ⟨none, none, some "600", some "100"⟩).success = false ∧
      (searchHandler demoInv ⟨none, none, some "600", some "100"⟩).results = []) ∧
    (searchHandler demoInv ⟨none, none, some "abc", some "100"⟩).success = true :=
  ⟨(minOverMax_validation demoInv ⟨none, none, some "600", some "100"⟩).1 "600" "100" 600 100
      rfl rfl parseFloat_600 parseFloat_100 (by norm_num),
    (minOverMax_validation demoInv ⟨none, none, some "abc", some "100"⟩).2
      (Or.inl parseFloat_abc)⟩

theorem applyMin_unparsable {s : String} (h : parseFloat s = none) (l : List Item) :
    applyMin (some s) l = l := by
  by_cases he : s == "" <;> simp [applyMin, he, h]

theorem applyMax_unparsable {s : String} (h : parseFloat s = none) (l : List Item) :
    applyMax (some s) l = l := by
  by_cases he : s == "" <;> simp [applyMax, he, h]

/-- C3: a supplied price bound whose string does not parse as a number
(`NaN`) imposes no constraint on the results and raises no error, while the
other bound, if parseable, still filters; with only an unparsable
`minPrice` and a parseable `maxPrice`, results are exactly the records with
price ≤ max. -/
theorem unparsablePrice_lenient (inv : List Item) (p : SearchQuery) (s : String)
    (h : parseFloat s = none) :
    (p.minPrice = some s →
      (searchHandler inv p).results = (searchHandler inv {p with minPrice := none}).results ∧
        (searchHandler inv p).success = true) ∧
    (p.maxPrice = some s →
      (searchHandler inv p).results = (searchHandler inv {p with maxPrice := none}).results ∧
        (searchHandler inv p).success = true) ∧
    (∀ t mx, parseFloat t = some mx →
      (searchHandler inv ⟨none, none, some s, some t⟩).results =
        inv.filter fun i => decide (i.price ≤ mx)) := by
  refine ⟨?_, ?_, ?_⟩
  · intro hmin
    have hri : rangeInvalid p = false := by
      unfold rangeInvalid
      rw [hmin]
      simp only [Option.getD_some]
      rw [h]
      cases hmx : parseFloat (p.maxPrice.getD "") <;> simp
    have hri2 : rangeInvalid {p with minPrice := none} = false := by
      unfold rangeInvalid
      simp [truthy]
    rw [searchHandler_eq, searchHandler_eq, if_neg (by simp [hri]), if_neg (by simp [hri2])]
    refine ⟨?_, rfl⟩
    simp only [SearchResponse.results]
    rw [show runFilters p inv =
        applyMax p.maxPrice (applyMin p.minPrice (applyCategory p.category (applyQ p.q inv)))
        from rfl,
      show runFilters {p with minPrice := none} inv =
        applyMax p.maxPrice (applyMin none (applyCategory p.category (applyQ p.q inv)))
        from rfl,
      hmin, applyMin_unparsable h]
    rfl
  · intro hmax
    have hri : rangeInvalid p = false := by
      unfold rangeInvalid
      rw [hmax]
      simp only [Option.getD_some]
      rw [h]
      cases hmn : parseFloat (p.minPrice.getD "") <;> simp
    have hri2 : rangeInvalid {p with maxPrice := none} = false := by
      unfold rangeInvalid
      simp [truthy]
    rw [searchHandler_eq, searchHandler_eq, if_neg (by simp [hri]), if_neg (by simp [hri2])]
    refine ⟨?_, rfl⟩
    simp only [SearchResponse.results]
    rw [show runFilters p inv =
        applyMax p.maxPrice (applyMin p.minPrice (applyCategory p.category (applyQ p.q inv)))
        from rfl,
      show runFilters {p with maxPrice := none} inv =
        applyMax none (applyMin p.minPrice (applyCategory p.category (applyQ p.q inv)))
        from rfl,
      hmax, applyMax_unparsable h]
    rfl
  · intro t mx hpt
    have htne : (t == "") = false := by simp [ne_empty_of_parse hpt]
    have hri : rangeInvalid ⟨none, none, some s, some t⟩ = false := by
      unfold rangeInvalid
      simp only [Option.getD_some]
      rw [h, hpt]
      simp
    rw [searchHandler_eq, if_neg (by simp [hri])]
    simp only [SearchResponse.results]
    rw [show runFilters ⟨none, none, some s, some t⟩ inv =
        applyMax (some t) (applyMin (some s) (applyCategory none (applyQ none inv))) from rfl,
      show applyCategory none (applyQ none inv) = inv from rfl,
      applyMin_unparsable h]
    simp [applyMax, htne, hpt]

/-- Witness for C3: `minPrice="abc"` (unparsable) with `maxPrice="100"`
behaves as if `minPrice` were absent, succeeds, and filters by max only. -/
theorem unparsablePrice_lenient_witness :
    ((searchHandler demoInv ⟨none, none, some "abc", some "100"⟩).results =
        (searchHandler demoInv ⟨none, none, none, some "100"⟩).results ∧
      (searchHandler demoInv ⟨none, none, some "abc", some "100"⟩).success = true) ∧
    (searchHandler demoInv ⟨none, none, some "abc", some "100"⟩).results =
      demoInv.filter fun i => decide (i.price ≤ (100 : ℚ)) :=
  ⟨(unparsablePrice_lenient demoInv ⟨none, none, some "abc", some "100"⟩ "abc" parseFloat_abc).1
      rfl,
    (unparsablePrice_lenient demoInv ⟨none, none, some "abc", some "100"⟩ "abc"
      parseFloat_abc).2.2 "100" 100 parseFloat_100⟩

theorem matchesQuery_iff (text query : String) :
    matchesQuery text query = true ↔
      ∃ l1 l2, lowerData text = l1 ++ lowerData query ++ l2 := by
  unfold matchesQuery
  by_cases hq : query == ""
  · rw [if_pos hq]
    have he : query = "" := by simpa using hq
    subst he
    constructor
    · exact fun _ => ⟨[], lowerData text, by simp [lowerData]⟩
    · exact fun _ => rfl
  · rw [if_neg hq, List.any_eq_true]
    constructor
    · rintro ⟨t, ht, hp⟩
      rw [List.mem_tails] at ht
      rw [ List.isPrefixOf_iff_prefix] at hp
      obtain ⟨l2, hl2⟩ := hp
      obtain ⟨l1, hl1⟩ := ht
      exact ⟨l1, l2, by rw [← hl1, ← hl2, List.append_assoc]⟩
    · rintro ⟨l1, l2, hsplit⟩
      refine ⟨lowerData query ++ l2, ?_, ?_⟩
      · rw [List.mem_tails]
        exact ⟨l1, by rw [hsplit, List.append_assoc]⟩
      · rw [ List.isPrefixOf_iff_prefix]
        exact ⟨l2, rfl⟩

/-- C4: a record passes the name filter iff the lower-cased criterion text
is a contiguous substring of the lower-cased product name; an empty
criterion matches everything; `"lap"` matches `"Laptop Dell XPS 15"`; and
on a `/search` with only `q` supplied, a record is in the results iff it is
in the store and `matchesQuery` accepts its name. -/
theorem nameFilter_characterisation (inv : List Item) (r : Item) (text query : String) :
    (matchesQuery text query = true ↔
      ∃ l1 l2, lowerData text = l1 ++ lowerData query ++ l2) ∧
    matchesQuery text "" = true ∧
    matchesQuery "Laptop Dell XPS 15" "lap" = true ∧
    (query ≠ "" →
      (r ∈ (searchHandler inv ⟨some query, none, none, none⟩).results ↔
        r ∈ inv ∧ matchesQuery r.product_name query = true)) := by
  refine ⟨matchesQuery_iff text query, by simp [matchesQuery], by decide, ?_⟩
  intro hq
  have hbq : (query == "") = false := by simp [hq]
  have hri : rangeInvalid ⟨some query, none, none, none⟩ = false := rfl
  rw [searchHandler_eq, if_neg (by simp [hri])]
  simp only [SearchResponse.results]
  rw [runFilters_eq_filter, List.mem_filter]
  simp [passAll, passQ_some, passCategory_none, passMin_none, passMax_none, hbq]

/-- Witness for C4: the record named "Laptop Dell XPS 15" is in the results
of a search for `q="lap"` iff it is in the store and matches. -/
theorem nameFilter_characterisation_witness :
    demoLaptop ∈ (searchHandler demoInv ⟨some "lap", none, none, none⟩).results ↔
      demoLaptop ∈ demoInv ∧ matchesQuery demoLaptop.product_name "lap" = true :=
  (nameFilter_characterisation demoInv demoLaptop "Laptop Dell XPS 15" "lap").2.2.2 (by decide)

theorem applyCategory_all (l : List Item) : applyCategory (some "all") l = l := rfl

theorem rangeInvalid_category (p : SearchQuery) (o : Option String) :
    rangeInvalid {p with category := o} = rangeInvalid p := rfl

/-- C5: `category="all"` yields the same result list as omitting the
category parameter, whatever the other criteria; and for a non-sentinel,
non-empty category value, a record is in the results iff it is in the
results of the category-free request and its category equals the criterion
case-insensitively. -/
theorem categoryAll_identity (inv : List Item) (p : SearchQuery) (c : String) (r : Item) :
    (searchHandler inv {p with category := some "all"}).results =
        (searchHandler inv {p with category := none}).results ∧
    (p.category = some c → c ≠ "" → c ≠ "all" →
      (r ∈ (searchHandler inv p).results ↔
        r ∈ (searchHandler inv {p with category := none}).results ∧
          lowerData r.category = lowerData c)) := by
  constructor
  · have e1 : rangeInvalid {p with category := some "all"} = rangeInvalid p := rfl
    have e2 : rangeInvalid {p with category := none} = rangeInvalid p := rfl
    rw [searchHandler_eq, searchHandler_eq, e1, e2]
    by_cases h : rangeInvalid p = true
    · rw [if_pos h, if_pos h]
    · rw [if_neg h, if_neg h]
      simp only [SearchResponse.results]
      rw [show runFilters {p with category := some "all"} inv =
          applyMax p.maxPrice (applyMin p.minPrice (applyCategory (some "all") (applyQ p.q inv)))
          from rfl, applyCategory_all]
      rfl
  · intro hc hne hnall
    have hcc : (c == "" || c == "all") = false := by simp [hne, hnall]
    have e2 : rangeInvalid {p with category := none} = rangeInvalid p := rfl
    rw [searchHandler_eq, searchHandler_eq, e2]
    by_cases h : rangeInvalid p = true
    · rw [if_pos h, if_pos h]
      simp [SearchResponse.results]
    · rw [if_neg h, if_neg h]
      simp only [SearchResponse.results]
      rw [runFilters_eq_filter p inv, runFilters_eq_filter {p with category := none} inv,
        List.mem_filter, List.mem_filter]
      have hpassn : passAll {p with category := none} r =
          (passMax p.maxPrice r && passMin p.minPrice r && passQ p.q r) := by
        simp [passAll, passCategory_none]
      have hpass : passAll p r =
          (passMax p.maxPrice r && passMin p.minPrice r &&
            (lowerData r.category == lowerData c) && passQ p.q r) := by
        simp [passAll, hc, passCategory_some, hcc]
      rw [hpass, hpassn]
      cases h1 : passMax p.maxPrice r <;> cases h2 : passMin p.minPrice r <;>
        cases h3 : passQ p.q r <;> cases h4 : (lowerData r.category == lowerData c) <;>
          simp_all

/-- Witness for C5: on the two-record demo store, `category="all"` equals
no category filter, and `category="Furniture"` keeps exactly the records of
that category. -/
theorem categoryAll_identity_witness :
    (searchHandler demoInv ⟨none, some "all", none, none⟩).results =
        (searchHandler demoInv ⟨none, none, none, none⟩).results ∧
    (demoChair ∈ (searchHandler demoInv ⟨none, some "Furniture", none, none⟩).results ↔
      demoChair ∈ (searchHandler demoInv ⟨none, none, none, none⟩).results ∧
        lowerData demoChair.category = lowerData "Furniture") :=
  ⟨(categoryAll_identity demoInv emptyQuery "" demoChair).1,
    (categoryAll_identity demoInv ⟨none, some "Furniture", none, none⟩ "Furniture" demoChair).2
      rfl (by decide) (by decide)⟩

/-- C6: with parseable `minPrice` and `maxPrice` strings whose values
satisfy min ≤ max (and no other criteria), `/search` succeeds and returns
exactly the records with min ≤ price ≤ max — both bounds inclusive. -/
theorem priceRange_inclusive (inv : List Item) (s t : String) (mn mx : ℚ)
    (hs : parseFloat s = some mn) (ht : parseFloat t = some mx) (hle : mn ≤ mx) :
    (searchHandler inv ⟨none, none, some s, some t⟩).results =
      inv.filter (fun i => decide (mn ≤ i.price ∧ i.price ≤ mx)) ∧
    (searchHandler inv ⟨none, none, some s, some t⟩).success = true := by
  have hsne : (s == "") = false := by simp [ne_empty_of_parse hs]
  have htne : (t == "") = false := by simp [ne_empty_of_parse ht]
  have hri : rangeInvalid ⟨none, none, some s, some t⟩ = false := by
    unfold rangeInvalid
    simp only [Option.getD_some]
    rw [hs, ht]
    simp [truthy, not_lt.mpr hle]
  rw [searchHandler_eq, if_neg (by simp [hri])]
  refine ⟨?_, rfl⟩
  simp only [SearchResponse.results]
  rw [runFilters_eq_filter]
  refine List.filter_congr fun x _ => ?_
  have hp : passAll ⟨none, none, some s, some t⟩ x =
      (decide (x.price ≤ mx) && decide (x.price ≥ mn)) := by
    simp [passAll, passMin_some, passMax_some, passQ_none, passCategory_none, hsne, htne, hs, ht]
  rw [hp]
  cases hd1 : decide (x.price ≤ mx) <;> cases hd2 : decide (x.price ≥ mn) <;> simp_all

/-- Witness for C6: `minPrice=100, maxPrice=500` on a store with prices
100, 500, 50, 700 keeps exactly the two boundary records — bounds are
inclusive. -/
theorem priceRange_inclusive_witness :
    ((searchHandler priceDemoInv ⟨none, none, some "100", some "500"⟩).results =
        priceDemoInv.filter (fun i => decide ((100 : ℚ) ≤ i.price ∧ i.price ≤ (500 : ℚ))) ∧
      (searchHandler priceDemoInv ⟨none, none, some "100", some "500"⟩).success = true) ∧
    priceDemoInv.filter (fun i => decide ((100 : ℚ) ≤ i.price ∧ i.price ≤ (500 : ℚ))) =
      [⟨1, "A", "X", 100, 1, "s", "c"⟩, ⟨2, "B", "X", 500, 1, "s", "c"⟩] :=
  ⟨priceRange_inclusive priceDemoInv "100" "500" 100 500 parseFloat_100 parseFloat_500
      (by norm_num),
    by decide⟩

theorem charListLe_total : ∀ as bs : List Char, charListLe as bs = true ∨ charListLe bs as = true := by
  intro as
  induction as with
  | nil => intro bs; left; rfl
  | cons a as ih =>
    intro bs
    cases bs with
    | nil => right; rfl
    | cons b bs =>
      by_cases h1 : a.toNat < b.toNat
      · left; simp [charListLe, h1]
      · by_cases h2 : b.toNat < a.toNat
        · right; simp [charListLe, h2]
        · rcases ih bs with h | h
          · left; simp [charListLe, h1, h2, h]
          · right; simp [charListLe, h1, h2, h]

theorem charListLe_trans :
    ∀ as bs cs : List Char, charListLe as bs = true → charListLe bs cs = true →
      charListLe as cs = true := by
  intro as
  induction as with
  | nil => intro bs cs _ _; rfl
  | cons a as ih =>
    intro bs cs h1 h2
    cases bs with
    | nil => exact absurd h1 (by simp [charListLe])
    | cons b bs =>
      cases cs with
      | nil => exact absurd h2 (by simp [charListLe])
      | cons c cs =>
        simp only [charListLe] at h1 h2 ⊢
        rcases Nat.lt_trichotomy a.toNat b.toNat with hab | hab | hab
        · rcases Nat.lt_trichotomy b.toNat c.toNat with hbc | hbc | hbc
          · simp [show a.toNat < c.toNat from hab.trans hbc]
          · simp [show a.toNat < c.toNat from hbc ▸ hab]
          · rw [if_neg (by omega), if_pos hbc] at h2
            exact absurd h2 (by simp)
        · rw [if_neg (by omega), if_neg (by omega)] at h1
          rcases Nat.lt_trichotomy b.toNat c.toNat with hbc | hbc | hbc
          · simp [show a.toNat < c.toNat by omega]
          · rw [if_neg (by omega), if_neg (by omega)] at h2
            rw [if_neg (by omega), if_neg (by omega)]
            exact ih bs cs h1 h2
          · rw [if_neg (by omega), if_pos hbc] at h2
            exact absurd h2 (by simp)
        · rw [if_neg (by omega), if_pos hab] at h1
          exact absurd h1 (by simp)

theorem dedupFirst_mem (a : String) :
    ∀ (l seen : List String), a ∈ dedupFirst seen l ↔ a ∈ l ∧ a ∉ seen := by
  intro l
  induction l with
  | nil => intro seen; simp [dedupFirst]
  | cons b l ih =>
    intro seen
    by_cases hb : b ∈ seen
    · rw [show dedupFirst seen (b :: l) = dedupFirst seen l from by simp [dedupFirst, hb]]
      rw [ih]
      constructor
      · rintro ⟨h1, h2⟩
        exact ⟨List.mem_cons_of_mem b h1, h2⟩
      · rintro ⟨h1, h2⟩
        rcases List.mem_cons.mp h1 with h1 | h1
        · subst h1; exact absurd hb h2
        · exact ⟨h1, h2⟩
    · rw [show dedupFirst seen (b :: l) = b :: dedupFirst (b :: seen) l from by
        simp [dedupFirst, hb]]
      rw [List.mem_cons, ih]
      constructor
      · rintro (h | ⟨h1, h2⟩)
        · subst h; exact ⟨List.mem_cons_self a l, hb⟩
        · exact ⟨List.mem_cons_of_mem b h1, fun hs => h2 (List.mem_cons_of_mem b hs)⟩
      · rintro ⟨h1, h2⟩
        by_cases hab : a = b
        · exact Or.inl hab
        · rcases List.mem_cons.mp h1 with h1 | h1
          · exact absurd h1 hab
          · refine Or.inr ⟨h1, fun hs => ?_⟩
            rcases List.mem_cons.mp hs with hs | hs
            · exact hab hs
            · exact h2 hs

theorem dedupFirst_nodup : ∀ (l seen : List String), (dedupFirst seen l).Nodup := by
  intro l
  induction l with
  | nil => intro seen; simp [dedupFirst]
  | cons b l ih =>
    intro seen
    by_cases hb : b ∈ seen
    · rw [show dedupFirst seen (b :: l) = dedupFirst seen l from by simp [dedupFirst, hb]]
      exact ih seen
    · rw [show dedupFirst seen (b :: l) = b :: dedupFirst (b :: seen) l from by
        simp [dedupFirst, hb]]
      rw [List.nodup_cons]
      refine ⟨fun hmem => ?_, ih _⟩
      rw [dedupFirst_mem] at hmem
      exact hmem.2 (List.mem_cons_self b seen)

/-- C7: `/categories` returns the distinct category values of the store —
sorted ascending under the lexicographic order `strLeR`, without
duplicates, containing exactly the categories present — and on the store
with categories `["Electronics","Books","Electronics"]` it returns
`["Books","Electronics"]`. -/
theorem categories_sorted_distinct (inv : List Item) (a : String) :
    List.Sorted strLeR (getCategories inv) ∧
    (getCategories inv).Nodup ∧
    (a ∈ getCategories inv ↔ a ∈ inv.map fun i => i.category) ∧
    getCategories catsDemoInv = ["Books", "Electronics"] := by
  refine ⟨?_, ?_, ?_, by decide⟩
  · exact @List.sorted_insertionSort String strLeR _
      ⟨fun x y => charListLe_total x.data y.data⟩
      ⟨fun x y z => charListLe_trans x.data y.data z.data⟩ _
  · exact ((List.perm_insertionSort strLeR _).nodup_iff).mpr
      (dedupFirst_nodup (inv.map fun i => i.category) [])
  · rw [getCategories, (List.perm_insertionSort strLeR _).mem_iff, dedupFirst_mem]
    simp

/-- C9: the `"all"` sentinel check is case-sensitive — any other casing of
"all" is an ordinary category criterion, so the filter is applied
(case-insensitive equality on the category), and on a store with no
category spelled (case-insensitively) "all" the results are empty. -/
theorem categorySentinel_caseSensitive (inv : List Item) (c : String)
    (hlow : lowerData c = lowerData "all") (hnall : c ≠ "all") :
    (searchHandler inv ⟨none, some c, none, none⟩).results =
      inv.filter (fun i => lowerData i.category == lowerData c) ∧
    ((∀ i ∈ inv, lowerData i.category ≠ lowerData "all") →
      (searchHandler inv ⟨none, some c, none, none⟩).results = []) := by
  have hce : c ≠ "" := by
    intro e
    subst e
    exact absurd hlow (by decide)
  have hcc : (c == "" || c == "all") = false := by simp [hce, hnall]
  have hri : rangeInvalid ⟨none, some c, none, none⟩ = false := rfl
  have hres : (searchHandler inv ⟨none, some c, none, none⟩).results =
      inv.filter (fun i => lowerData i.category == lowerData c) := by
    rw [searchHandler_eq, if_neg (by simp [hri])]
    simp only [SearchResponse.results]
    rw [runFilters_eq_filter]
    refine List.filter_congr fun x _ => ?_
    simp [passAll, passCategory_some, passQ_none, passMin_none, passMax_none, hcc]
  refine ⟨hres, fun hall => hres.trans ?_⟩
  rw [List.filter_eq_nil_iff]
  intro i hi
  rw [hlow]
  simp [hall i hi]

/-- Witness for C9: `category="All"` on the demo store (which has no
category "all" in any casing) applies the filter and returns nothing. -/
theorem categorySentinel_caseSensitive_witness :
    (searchHandler catsDemoInv ⟨none, some "All", none, none⟩).results =
      catsDemoInv.filter (fun i => lowerData i.category == lowerData "All") ∧
    (searchHandler catsDemoInv ⟨none, some "All", none, none⟩).results = [] :=
  ⟨(categorySentinel_caseSensitive catsDemoInv "All" (by decide) (by decide)).1,
    (categorySentinel_caseSensitive catsDemoInv "All" (by decide) (by decide)).2 (by decide)⟩

/-- C10: an empty-string `q`, `minPrice`, or `maxPrice` behaves exactly
like an absent parameter — same full response (so no filtering and no
participation in range validation) — and such parameters are echoed as
`null` in the success response's query object. -/
theorem emptyParam_actsAbsent (inv : List Item) (p : SearchQuery) :
    searchHandler inv {p with q := some ""} = searchHandler inv {p with q := none} ∧
    searchHandler inv {p with minPrice := some ""} =
      searchHandler inv {p with minPrice := none} ∧
    searchHandler inv {p with maxPrice := some ""} =
      searchHandler inv {p with maxPrice := none} ∧
    (∀ n qe rs,
      searchHandler inv {p with q := some "", minPrice := some "", maxPrice := some ""} =
          SearchResponse.ok n qe rs →
      qe.q = none ∧ qe.minPrice = none ∧ qe.maxPrice = none) := by
  refine ⟨rfl, rfl, rfl, ?_⟩
  intro n qe rs h
  rw [show searchHandler inv {p with q := some "", minPrice := some "", maxPrice := some ""} =
      SearchResponse.ok
        (runFilters {p with q := some "", minPrice := some "", maxPrice := some ""} inv).length
        (echoQuery {p with q := some "", minPrice := some "", maxPrice := some ""})
        (runFilters {p with q := some "", minPrice := some "", maxPrice := some ""} inv)
      from rfl] at h
  cases h
  exact ⟨rfl, rfl, rfl⟩

/-- Witness for C10: on the demo store, an empty `q` gives the same
response as no `q`, and with empty `q`/`minPrice`/`maxPrice` the echoed
query object is all-`null`. -/
theorem emptyParam_actsAbsent_witness :
    searchHandler demoInv ⟨some "", none, none, none⟩ =
        searchHandler demoInv ⟨none, none, none, none⟩ ∧
    ((⟨none, none, none, none⟩ : EchoedQuery).q = none ∧
      (⟨none, none, none, none⟩ : EchoedQuery).minPrice = none ∧
      (⟨none, none, none, none⟩ : EchoedQuery).maxPrice = none) :=
  ⟨(emptyParam_actsAbsent demoInv emptyQuery).1,
    (emptyParam_actsAbsent demoInv emptyQuery).2.2.2 demoInv.length ⟨none, none, none, none⟩
      demoInv rfl⟩
